import Mathlib

/-
Shallow embedding of the light-transport core of the doubleailes/ray-tracing
repository (Rust).  Conventions used throughout this development:

* `f32` scalars are modelled as exact rationals (`ℚ`); decimal literals of the
  Rust source (0.5, 0.04, 1e-4, ...) are read as the exact rational they
  denote.  `std::f32::consts::PI` is modelled by the exact rational value of
  the `f32` constant, `13176795 / 4194304`.
* `f32::sqrt` is modelled by `Rat.sqrt`, which agrees with the exact square
  root whenever numerator and denominator are perfect squares; all concrete
  evaluations below are performed at such points.
* Division on `ℚ` is total with `x / 0 = 0` (Lean's convention).
* Rust functions drawing from the global random source (`utils::random()`,
  `random_cosine_direction()`, `sample_vndf_ggx`) are modelled by passing the
  drawn value explicitly as an argument, so every function is a deterministic
  function of its inputs plus the explicit random draws.
* `Option` models Rust's `Option` as well as the bool-plus-out-parameters
  scatter convention (`true` with written out-params ≙ `some`, `false` ≙
  `none`); a `none` result of the integrator models a panic of the
  `rec.mat.unwrap()` call.
* The integrator queries the scene only through
  `world.hit(r, 0.001, f32::INFINITY)`; the scene is therefore embedded as the
  function `Ray → Option (HitRecord × Option Material)` obtained from `hit`
  at those fixed bounds.
-/

/-- Three rational components, embedding the repository's `Vec3` (`vec3.rs`,
whose operations are listed in the spec: addition, scaling, dot product,
normalization, reflection). `Color` is an alias of `Vec3` (`color.rs`). -/
structure Vec3 where
  x : ℚ
  y : ℚ
  z : ℚ
deriving DecidableEq

/-- Color is a type alias over the vector type, as in `color.rs`. -/
abbrev Color := Vec3

instance : Add Vec3 := ⟨fun a b => ⟨a.x + b.x, a.y + b.y, a.z + b.z⟩⟩

instance : Sub Vec3 := ⟨fun a b => ⟨a.x - b.x, a.y - b.y, a.z - b.z⟩⟩

instance : Neg Vec3 := ⟨fun a => ⟨-a.x, -a.y, -a.z⟩⟩

instance : Mul Vec3 := ⟨fun a b => ⟨a.x * b.x, a.y * b.y, a.z * b.z⟩⟩

instance : HMul ℚ Vec3 Vec3 := ⟨fun t v => ⟨t * v.x, t * v.y, t * v.z⟩⟩

instance : HMul Vec3 ℚ Vec3 := ⟨fun v t => ⟨v.x * t, v.y * t, v.z * t⟩⟩

instance : HDiv Vec3 ℚ Vec3 := ⟨fun v t => ⟨v.x / t, v.y / t, v.z / t⟩⟩

theorem Vec3.add_def (a b : Vec3) : a + b = ⟨a.x + b.x, a.y + b.y, a.z + b.z⟩ := rfl

theorem Vec3.sub_def (a b : Vec3) : a - b = ⟨a.x - b.x, a.y - b.y, a.z - b.z⟩ := rfl

theorem Vec3.neg_def (a : Vec3) : -a = ⟨-a.x, -a.y, -a.z⟩ := rfl

theorem Vec3.mul_def (a b : Vec3) : a * b = ⟨a.x * b.x, a.y * b.y, a.z * b.z⟩ := rfl

theorem Vec3.smul_def (t : ℚ) (v : Vec3) : t * v = ⟨t * v.x, t * v.y, t * v.z⟩ := rfl

theorem Vec3.muls_def (v : Vec3) (t : ℚ) : v * t = ⟨v.x * t, v.y * t, v.z * t⟩ := rfl

theorem Vec3.divs_def (v : Vec3) (t : ℚ) : v / t = ⟨v.x / t, v.y / t, v.z / t⟩ := rfl

/-- Dot product of `vec3.rs`. -/
def dot (a b : Vec3) : ℚ :=
  a.x * b.x + a.y * b.y + a.z * b.z

/-- Squared length of a vector. -/
def Vec3.length_squared (v : Vec3) : ℚ :=
  v.x * v.x + v.y * v.y + v.z * v.z

/-- Length of a vector; `f32::sqrt` modelled by `Rat.sqrt` (exact on perfect
squares, where all concrete evaluations below take place). -/
def Vec3.length (v : Vec3) : ℚ :=
  Rat.sqrt v.length_squared

/-- Normalization `v / v.length()` of `vec3.rs`. -/
def unit_vector (v : Vec3) : Vec3 :=
  v / v.length

/-- Mirror reflection `v - 2*dot(v,n)*n` of `vec3.rs` (the spec lists
reflection among the vector operations). -/
def reflect (v n : Vec3) : Vec3 :=
  v - (2 * dot v n) * n

/-- Componentwise linear interpolation `self + (other - self) * t`, the
`Color::lerp` used by the material code (spec: Color supports `lerp`). -/
def Vec3.lerp (self other : Vec3) (t : ℚ) : Vec3 :=
  self + (other - self) * t

/-- Largest component of a color (`max_component` used by `disney.rs`). -/
def Vec3.max_component (v : Vec3) : ℚ :=
  max v.x (max v.y v.z)

/-- The repository's `Ray`: an origin and a not-necessarily-normalized
direction (`ray.rs`). -/
structure Ray where
  origin : Vec3
  direction : Vec3
deriving DecidableEq

/-- Modelled from the spec: `ray.rs` is not among the provided sources; the
spec states a ray is "parameterized by scalar `t` to produce a point
`origin + t·direction`". -/
def Ray.at (r : Ray) (t : ℚ) : Vec3 :=
  r.origin + t * r.direction

/-- The geometric part of `HitRecord` (`hittable.rs`): hit point, corrected
normal, parametric distance and the front-face flag.  The material reference
field `mat : Option<Arc<dyn Material>>` is carried alongside by the scene
function (see `World` below), so that material closures may mention
`HitRecord` without a circular type. -/
structure HitRecord where
  p : Vec3
  normal : Vec3
  t : ℚ
  front_face : Bool
deriving DecidableEq

/-- `HitRecord::new()` / `Default::default()`: zeroed record. -/
def HitRecord.new : HitRecord :=
  ⟨⟨0, 0, 0⟩, ⟨0, 0, 0⟩, 0, false⟩

/-- `HitRecord::set_face_normal` from `hittable.rs`: stores
`front_face = dot(r.direction, outward_normal) < 0` and flips the outward
normal when the ray hits the back side. -/
def HitRecord.set_face_normal (rec : HitRecord) (r : Ray) (outward_normal : Vec3) : HitRecord :=
  { rec with
    front_face := decide (dot r.direction outward_normal < 0)
    normal := if dot r.direction outward_normal < 0 then outward_normal else -outward_normal }

/-- A material's `scatter` capability as consumed by the integrator
(`material.rs` trait): `true` with out-parameters written ≙
`some (attenuation, scattered)`, `false` ≙ `none`.  Any internal random draw
has already been fixed inside the closure. -/
abbrev Material := Ray → HitRecord → Option (Color × Ray)

/-- The scene as the integrator sees it: `world.hit(r, 0.001, INFINITY)`
returning the filled record and its (possibly absent) material reference.
`none` models `hit` returning `false`. -/
abbrev World := Ray → Option (HitRecord × Option Material)

/-- The recursive radiance estimator `ray_color` of `main.rs`.  Depth is an
`i32` modelled as `ℤ`; the result is `none` exactly when the Rust code would
panic on `rec.mat.as_ref().unwrap()` (hit record without a material). -/
def ray_color (world : World) (r : Ray) (depth : ℤ) : Option Color :=
  if _h : depth ≤ 0 then
    some ⟨0, 0, 0⟩
  else
    match world r with
    | some (rec, mat) =>
      match mat with
      | none => none
      | some m =>
        match m r rec with
        | some (attenuation, scattered) =>
          Option.map (fun c => attenuation * c) (ray_color world scattered (depth - 1))
        | none => some ⟨0, 0, 0⟩
    | none =>
      let unit_direction := unit_vector r.direction
      let t := 0.5 * (unit_direction.y + 1.0)
      some ((1.0 - t) * (⟨1.0, 1.0, 1.0⟩ : Color) + t * (⟨0.5, 0.7, 1.0⟩ : Color))
termination_by depth.toNat
decreasing_by
  simp_wf
  omega

/-- The `f32` constant `std::f32::consts::PI`, exactly. -/
def PI : ℚ := 13176795 / 4194304

/-- Modelled from the spec: `fresnel_schlick` lives in the missing
`material` module of the `crust-render` crate; the spec defines it as
`F = F0 + (1−F0)(1−cosθ)⁵` with a Color-valued `F0`. -/
def fresnel_schlick (cos : ℚ) (f0 : Color) : Color :=
  f0 + ((⟨1, 1, 1⟩ : Color) - f0) * ((1 - cos) ^ (5 : ℕ))

/-- Modelled from the spec: scalar Schlick Fresnel `fresnel_schlick_scalar`
used by the Disney clearcoat lobe, `F = F0 + (1−F0)(1−cosθ)⁵`. -/
def fresnel_schlick_scalar (cos f0 : ℚ) : ℚ :=
  f0 + (1 - f0) * (1 - cos) ^ (5 : ℕ)

/-- Modelled from the spec: Schlick-GGX geometry term
`G1(x) = x / (x(1−k)+k)` with `k = a/2`, `a = roughness²`. -/
def geometry_schlick_ggx (x roughness : ℚ) : ℚ :=
  let a := roughness * roughness
  let k := a / 2
  x / (x * (1 - k) + k)

/-- Modelled from the spec: the density of VNDF sampling,
`pdf_vndf_ggx(v,h,n,roughness)`; built from the spec's GGX `D` and
Schlick-GGX `G1` terms as the standard visible-normal density
`G1(n·v) · D(n·h) / (4 · n·v)`. -/
def pdf_vndf_ggx (v h n : Vec3) (roughness : ℚ) : ℚ :=
  let a := roughness * roughness
  let a2 := a * a
  let n_dot_h := max (dot n h) 0
  let n_dot_v := max (dot n v) 1e-4
  let d := a2 / (PI * (n_dot_h * n_dot_h * (a2 - 1) + 1) ^ (2 : ℕ))
  geometry_schlick_ggx n_dot_v roughness * d / (4 * n_dot_v)

/-- Modelled from the spec: `utils::balance_heuristic`, the balance-heuristic
MIS weight of the strategy whose pdf is the first argument,
`a / (a + b)`. -/
def balance_heuristic (a b : ℚ) : ℚ :=
  a / (a + b)

/-- The Cook-Torrance material parameters
(`crates/crust-render/src/material/cook_torrance.rs`). -/
structure CookTorrance where
  albedo : Color
  roughness : ℚ
  metallic : ℚ
deriving DecidableEq

/-- `CookTorrance::new`: clamps roughness to `[0.05, 1.0]` and metallic to
`[0, 1]` (Rust `f32::clamp`). -/
def CookTorrance.new (albedo : Color) (roughness metallic : ℚ) : CookTorrance :=
  ⟨albedo, min (max roughness 0.05) 1.0, min (max metallic 0.0) 1.0⟩

/-- `CookTorrance::scatter` (`cook_torrance.rs` lines 58-98).  The VNDF draw
`sample_vndf_ggx(v, roughness)` is passed explicitly as `hs`. -/
def CookTorrance.scatter (self : CookTorrance) (r_in : Ray) (rec : HitRecord)
    (hs : Vec3) : Option (Color × Ray) :=
  let n := rec.normal
  let v := -(unit_vector r_in.direction)
  let h := hs
  let l := reflect (-v) h
  if dot l n ≤ 0 then
    none
  else
    let n_dot_v := max (dot n v) 1e-4
    let n_dot_l := max (dot n l) 1e-4
    let n_dot_h := max (dot n h) 1e-4
    let v_dot_h := max (dot v h) 1e-4
    let f0 := Vec3.lerp ⟨0.04, 0.04, 0.04⟩ self.albedo self.metallic
    let f := fresnel_schlick v_dot_h f0
    let a := self.roughness * self.roughness
    let a2 := a * a
    let denom := (n_dot_h * n_dot_h * (a2 - 1) + 1) ^ (2 : ℕ)
    let d := a2 / (PI * denom)
    let g := geometry_schlick_ggx n_dot_v self.roughness
      * geometry_schlick_ggx n_dot_l self.roughness
    let specular := (f * d * g) / (4 * n_dot_v * n_dot_l + 1e-4)
    let kd := ((⟨1, 1, 1⟩ : Color) - f) * (1 - self.metallic)
    let diffuse := self.albedo / PI
    some (kd * diffuse + specular, Ray.mk rec.p l)

/-- The BRDF evaluation block duplicated verbatim in both branches of
`CookTorrance::scatter_importance` (`cook_torrance.rs` lines 119-139 and
154-170): Fresnel, GGX `D`, Schlick-GGX `G`, specular plus diffuse. -/
def ct_eval_brdf (self : CookTorrance) (n v l h : Vec3) : Color :=
  let f0 := Vec3.lerp ⟨0.04, 0.04, 0.04⟩ self.albedo self.metallic
  let f := fresnel_schlick (dot v h) f0
  let a := self.roughness * self.roughness
  let a2 := a * a
  let n_dot_h := max (dot n h) 1e-4
  let denom := (n_dot_h * n_dot_h * (a2 - 1) + 1) ^ (2 : ℕ)
  let d := a2 / (PI * denom)
  let g := geometry_schlick_ggx (dot n v) self.roughness
    * geometry_schlick_ggx (dot n l) self.roughness
  let spec := (f * d * g) / (4 * dot n v * dot n l + 1e-4)
  let kd := ((⟨1, 1, 1⟩ : Color) - f) * (1 - self.metallic)
  let diffuse := self.albedo / PI
  kd * diffuse + spec

/-- `CookTorrance::scatter_importance` (`cook_torrance.rs` lines 100-181).
Random draws are explicit: `u` is the lobe selector `utils::random()`, `hs`
the half-vector drawn by `sample_vndf_ggx(v, roughness)`, and `ld` the
world-space direction drawn by `random_cosine_direction()` aligned to `n`. -/
def CookTorrance.scatter_importance (self : CookTorrance) (r_in : Ray)
    (rec : HitRecord) (u : ℚ) (hs ld : Vec3) : Option (Ray × Color × ℚ) :=
  let n := rec.normal
  let v := -(unit_vector r_in.direction)
  let branch : Option (Vec3 × ℚ × ℚ × Color) :=
    if u < 0.5 then
      let h := hs
      let l := reflect (-v) h
      if dot l n ≤ 0 then
        none
      else
        let pdf_ggx := pdf_vndf_ggx v h n self.roughness
        let cosine := max (dot n l) 1e-4
        let pdf_cosine := cosine / PI
        some (l, pdf_ggx * 0.5, pdf_cosine * 0.5, ct_eval_brdf self n v l h)
    else
      let l := ld
      if dot l n ≤ 0 then
        none
      else
        let h := unit_vector (v + l)
        let pdf_cosine := max (dot n l) 1e-4 / PI
        let pdf_ggx := pdf_vndf_ggx v h n self.roughness
        some (l, pdf_ggx * 0.5, pdf_cosine * 0.5, ct_eval_brdf self n v l h)
  match branch with
  | none => none
  | some (l, pdf_specular, pdf_diffuse, brdf) =>
    let weight := balance_heuristic pdf_specular pdf_diffuse
    let final_pdf := pdf_specular + pdf_diffuse
    let n_dot_l := max (dot n l) 1e-4
    some (Ray.mk rec.p l, brdf * n_dot_l * weight, max final_pdf 1e-4)

/-- The Blinn-Phong material (`crates/crust-render/src/material/blinn_phong.rs`).
The `f32` shininess exponent is modelled as a natural number (only natural
exponents occur in the claims). -/
structure BlinnPhong where
  diffuse : Color
  specular : Color
  shininess : ℕ
  light_dir : Vec3
deriving DecidableEq

/-- `BlinnPhong::new`: normalizes the light direction. -/
def BlinnPhong.new (diffuse specular : Color) (shininess : ℕ) (light_dir : Vec3) : BlinnPhong :=
  ⟨diffuse, specular, shininess, unit_vector light_dir⟩

/-- `BlinnPhong::scatter` (`blinn_phong.rs` lines 27-49): evaluates the
analytic Blinn-Phong shading toward the fixed directional light and always
accepts, scattering along the light direction. -/
def BlinnPhong.scatter (self : BlinnPhong) (r_in : Ray) (rec : HitRecord) :
    Option (Color × Ray) :=
  let normal := rec.normal
  let view_dir := -(unit_vector r_in.direction)
  let light_dir := self.light_dir
  let halfway := unit_vector (view_dir + light_dir)
  let diff := max (dot normal light_dir) 0
  let spec := (max (dot normal halfway) 0) ^ self.shininess
  let color := self.diffuse * diff + self.specular * spec
  some (color, Ray.mk rec.p light_dir)

/-- Modelled from the spec: the `(1−u)⁵` Schlick weight `schlick_weight`
used by the Disney sheen term (from the missing `brdf` module). -/
def schlick_weight (u : ℚ) : ℚ :=
  (1 - u) ^ (5 : ℕ)

/-- Modelled from the spec: `disney_diffuse` from the missing `brdf` module;
the standard Disney (Burley) diffuse lobe with the roughness-driven
retro-reflection factor, scaled by the base color over π. -/
def disney_diffuse (base_color : Color) (roughness : ℚ) (n v l h : Vec3) : Color :=
  let fl := schlick_weight (max (dot n l) 0)
  let fv := schlick_weight (max (dot n v) 0)
  let fd90 := 0.5 + 2 * roughness * (max (dot l h) 0) ^ (2 : ℕ)
  base_color * ((1 + (fd90 - 1) * fl) * (1 + (fd90 - 1) * fv) / PI)

/-- Modelled from the spec: the GTR1 (generalized Trowbridge-Reitz, exponent
1) clearcoat distribution from the missing `brdf` module; its logarithmic
normalization constant is not representable over `ℚ` and is omitted — no
claim depends on the clearcoat lobe's magnitude. -/
def gtr1 (n_dot_h a : ℚ) : ℚ :=
  let a2 := a * a
  (a2 - 1) / (PI * (1 + (a2 - 1) * n_dot_h * n_dot_h))

/-- Modelled from the spec: the scalar `Lerp` impl of `common.rs`,
`x.lerp(a, b) = a + (b − a) · x` (the spec phrases the clearcoat remap as
`lerp(0.1, 0.001, 1−clearcoat_gloss)`). -/
def f32_lerp (x a b : ℚ) : ℚ :=
  a + (b - a) * x

/-- The Disney principled material parameters (`src/material/disney.rs`). -/
structure Disney where
  base_color : Color
  metallic : ℚ
  roughness : ℚ
  specular : ℚ
  specular_tint : ℚ
  sheen : ℚ
  sheen_tint : ℚ
  clearcoat : ℚ
  clearcoat_gloss : ℚ
deriving DecidableEq

/-- `Disney::scatter_importance` (`disney.rs` lines 50-107).  The cosine draw
`align_to_normal(random_cosine_direction(), n)` is passed explicitly as the
world-space direction `ld`. -/
def Disney.scatter_importance (self : Disney) (r_in : Ray) (rec : HitRecord)
    (ld : Vec3) : Option (Ray × Color × ℚ) :=
  let n := rec.normal
  let v := -(unit_vector r_in.direction)
  let l := ld
  let h := unit_vector (v + l)
  let n_dot_l := max (dot n l) 0
  let n_dot_v := max (dot n v) 0
  let n_dot_h := max (dot n h) 0
  let l_dot_h := max (dot l h) 0
  let v_dot_h := max (dot v h) 0
  let tint := if 0 < self.base_color.max_component then
      self.base_color / self.base_color.max_component
    else
      (⟨1, 1, 1⟩ : Color)
  let f0 := Vec3.lerp ⟨0.04, 0.04, 0.04⟩ tint self.specular_tint * self.specular
  let F := fresnel_schlick v_dot_h (Vec3.lerp f0 self.base_color self.metallic)
  let kd := ((⟨1, 1, 1⟩ : Color) - F) * (1 - self.metallic)
  let diffuse := disney_diffuse self.base_color self.roughness n v l h
  let sheen_color := Vec3.lerp ⟨1, 1, 1⟩ tint self.sheen_tint
  let sheen := sheen_color * schlick_weight l_dot_h * self.sheen
  let a := self.roughness * self.roughness
  let a2 := a * a
  let denom := (n_dot_h * n_dot_h * (a2 - 1) + 1) ^ (2 : ℕ)
  let D := a2 / (PI * max denom 1e-4)
  let G := min (2 * n_dot_h * n_dot_v / v_dot_h) 1
    * min (2 * n_dot_h * n_dot_l / v_dot_h) 1
  let specular := F * (D * G) / (4 * n_dot_v * n_dot_l + 1e-4)
  let h_clear := unit_vector (v + l)
  let clear_alpha := f32_lerp (1 - self.clearcoat_gloss) 0.1 0.001
  let Dc := gtr1 (max (dot n h_clear) 0) clear_alpha
  let Fc := fresnel_schlick_scalar (max (dot v h_clear) 0) 0.04
  let Gc : ℚ := 1
  let clearcoat := self.clearcoat * Dc * Fc * Gc / (4 * n_dot_v * n_dot_l + 1e-4)
  let total := kd * diffuse + specular + sheen + (⟨clearcoat, clearcoat, clearcoat⟩ : Color)
  let scattered := Ray.mk rec.p l
  let pdf := n_dot_l / PI
  some (scattered, total * n_dot_l, max pdf 1e-4)

/-- `Disney::scatter` (`disney.rs` lines 109-111): always rejects — only
importance sampling is supported. -/
def Disney.scatter (_self : Disney) (_r_in : Ray) (_rec : HitRecord) :
    Option (Color × Ray) :=
  none

/-- An 8-wide SIMD lane pack (`wide::f32x8`), modelled lane-exactly. -/
abbrev F32x8 := Fin 8 → ℚ

/-- Modelled from the spec: `Vec3x8` of the missing `vec3x8.rs`, the
structure-of-arrays form holding eight vectors packed into SIMD lanes, with
lane-parallel addition and lane-parallel scaling by an `f32x8`. -/
structure Vec3x8 where
  x : F32x8
  y : F32x8
  z : F32x8

instance : Add Vec3x8 :=
  ⟨fun a b => ⟨fun i => a.x i + b.x i, fun i => a.y i + b.y i, fun i => a.z i + b.z i⟩⟩

instance : HMul Vec3x8 F32x8 Vec3x8 :=
  ⟨fun v t => ⟨fun i => v.x i * t i, fun i => v.y i * t i, fun i => v.z i * t i⟩⟩

/-- The 8-wide ray of `rayx8.rs`: eight origins and eight directions. -/
structure Rayx8 where
  origin : Vec3x8
  direction : Vec3x8

/-- `Rayx8::new`. -/
def Rayx8.new (origin direction : Vec3x8) : Rayx8 :=
  ⟨origin, direction⟩

/-- `Rayx8::at` (`rayx8.rs` lines 13-15): `self.origin + self.direction * t`,
lane-parallel. -/
def Rayx8.at (self : Rayx8) (t : F32x8) : Vec3x8 :=
  self.origin + self.direction * t

/-- Lane extraction: the scalar vector held in lane `i`. -/
def Vec3x8.lane (v : Vec3x8) (i : Fin 8) : Vec3 :=
  ⟨v.x i, v.y i, v.z i⟩

/-- Lane extraction: the scalar ray held in lane `i`. -/
def Rayx8.lane (r : Rayx8) (i : Fin 8) : Ray :=
  ⟨r.origin.lane i, r.direction.lane i⟩


theorem dot_comm (a b : Vec3) : dot a b = dot b a := by
  unfold dot; ring

theorem dot_neg_right (a b : Vec3) : dot a (-b) = -(dot a b) := by
  simp only [dot, Vec3.neg_def]; ring

theorem rat_sqrt_one : Rat.sqrt 1 = 1 := by
  rw [show (1 : ℚ) = 1 * 1 by norm_num, Rat.sqrt_eq]
  norm_num

theorem rat_sqrt_four : Rat.sqrt 4 = 2 := by
  rw [show (4 : ℚ) = 2 * 2 by norm_num, Rat.sqrt_eq]
  norm_num

/-- C2: for every scene and every input ray, the radiance estimator at depth
budget 0 returns exactly the color (0,0,0); the quantification over the whole
scene function shows no scene query (and no material randomness) is
involved. -/
theorem ray_color_depth_zero (world : World) (r : Ray) :
    ray_color world r 0 = some ⟨0, 0, 0⟩ := by
  rw [ray_color]
  norm_num

/-- C1: at positive depth, when the scene reports a hit whose material
scatter accepts, the estimator returns the attenuation multiplied
component-wise by the estimate of the scattered ray at depth one less; when
scatter signals absorption it returns the zero color. -/
theorem ray_color_recursive_step (world : World) (r : Ray) (depth : ℤ)
    (rec : HitRecord) (m : Material)
    (hd : 0 < depth) (hw : world r = some (rec, some m)) :
    (∀ attenuation scattered, m r rec = some (attenuation, scattered) →
      ray_color world r depth
        = Option.map (fun c => attenuation * c) (ray_color world scattered (depth - 1)))
    ∧ (m r rec = none → ray_color world r depth = some ⟨0, 0, 0⟩) := by
  constructor
  · intro attenuation scattered hm
    rw [ray_color, dif_neg (by omega : ¬ depth ≤ 0), hw]
    simp only [hm]
  · intro hm
    rw [ray_color, dif_neg (by omega : ¬ depth ≤ 0), hw]
    simp only [hm]

def c1_mat : Material := fun _ _ => some (⟨2, 3, 4⟩, Ray.mk ⟨0, 0, 0⟩ ⟨0, 1, 0⟩)

def c1_world : World := fun _ => some (HitRecord.new, some c1_mat)

/-- Witness for C1 at a concrete one-hit scene with an always-accepting
material. -/
theorem ray_color_recursive_step_witness :
    (0 : ℤ) < 1
    ∧ c1_world (Ray.mk ⟨0, 0, 0⟩ ⟨0, 1, 0⟩) = some (HitRecord.new, some c1_mat)
    ∧ c1_mat (Ray.mk ⟨0, 0, 0⟩ ⟨0, 1, 0⟩) HitRecord.new
        = some (⟨2, 3, 4⟩, Ray.mk ⟨0, 0, 0⟩ ⟨0, 1, 0⟩)
    ∧ ray_color c1_world (Ray.mk ⟨0, 0, 0⟩ ⟨0, 1, 0⟩) 1
        = Option.map (fun c => (⟨2, 3, 4⟩ : Color) * c)
            (ray_color c1_world (Ray.mk ⟨0, 0, 0⟩ ⟨0, 1, 0⟩) 0) :=
  ⟨by norm_num, rfl, rfl,
    (ray_color_recursive_step c1_world (Ray.mk ⟨0, 0, 0⟩ ⟨0, 1, 0⟩) 1 HitRecord.new c1_mat
      (by norm_num) rfl).1 _ _ rfl⟩

/-- C3: at positive depth, a ray the scene misses gets exactly the
deterministic background gradient `(1-t)*(1,1,1) + t*(0.5,0.7,1.0)` with
`t = 0.5*(u.y + 1)` for `u` the normalized ray direction; materials and
random draws never enter. -/
theorem ray_color_miss_background (world : World) (r : Ray) (depth : ℤ)
    (hd : 0 < depth) (hw : world r = none) :
    ray_color world r depth
      = some ((1.0 - 0.5 * ((unit_vector r.direction).y + 1.0)) * (⟨1.0, 1.0, 1.0⟩ : Color)
          + (0.5 * ((unit_vector r.direction).y + 1.0)) * (⟨0.5, 0.7, 1.0⟩ : Color)) := by
  rw [ray_color, dif_neg (by omega : ¬ depth ≤ 0), hw]

/-- Witness for C3: the empty scene and the straight-up unit ray evaluate to
the zenith color (0.5, 0.7, 1.0). -/
theorem ray_color_miss_background_witness :
    (0 : ℤ) < 5
    ∧ (fun _ => none : World) (Ray.mk ⟨0, 0, 0⟩ ⟨0, 1, 0⟩) = none
    ∧ ray_color (fun _ => none) (Ray.mk ⟨0, 0, 0⟩ ⟨0, 1, 0⟩) 5 = some ⟨0.5, 0.7, 1.0⟩ := by
  refine ⟨by norm_num, rfl, ?_⟩
  rw [ray_color_miss_background (fun _ => none) (Ray.mk ⟨0, 0, 0⟩ ⟨0, 1, 0⟩) 5
    (by norm_num) rfl]
  norm_num [unit_vector, Vec3.length, Vec3.length_squared, Vec3.divs_def, Vec3.smul_def,
    Vec3.add_def, rat_sqrt_one, Vec3.mk.injEq]

theorem ray_color_isSome_of_bound (world : World)
    (hwf : ∀ r rec mo, world r = some (rec, mo) → mo.isSome = true) :
    ∀ (n : ℕ) (depth : ℤ), depth.toNat ≤ n → ∀ r : Ray,
      (ray_color world r depth).isSome = true := by
  intro n
  induction n with
  | zero =>
    intro depth hdn r
    rw [ray_color]
    by_cases hd : depth ≤ 0
    · rw [dif_pos hd]; rfl
    · omega
  | succ k ih =>
    intro depth hdn r
    rw [ray_color]
    by_cases hd : depth ≤ 0
    · rw [dif_pos hd]; rfl
    · rw [dif_neg hd]
      cases hw : world r with
      | none => simp
      | some pair =>
        obtain ⟨rec, mo⟩ := pair
        have hms := hwf r rec mo hw
        cases mo with
        | none => simp at hms
        | some m =>
          cases hm : m r rec with
          | none => simp [hm]
          | some pr =>
            obtain ⟨attenuation, scattered⟩ := pr
            have hrec := ih (depth - 1) (by omega) scattered
            obtain ⟨c, hc⟩ := Option.isSome_iff_exists.mp hrec
            simp [hm, hc]

/-- C6: the radiance estimator is total: for every scene whose hits always
carry a material reference (well-formedness), every ray and every depth, the
estimator returns a color value (it never reaches the `unwrap` panic, and the
recursion is bounded by the depth budget). -/
theorem ray_color_total (world : World)
    (hwf : ∀ r rec mo, world r = some (rec, mo) → mo.isSome = true)
    (r : Ray) (depth : ℤ) : (ray_color world r depth).isSome = true :=
  ray_color_isSome_of_bound world hwf depth.toNat depth le_rfl r

/-- Witness for C6 at the empty scene (its hits vacuously all carry
materials). -/
theorem ray_color_total_witness :
    (ray_color (fun _ => none : World) (Ray.mk ⟨0, 0, 0⟩ ⟨0, 1, 0⟩) 3).isSome = true :=
  ray_color_total (fun _ => none) (fun _ _ _ h => Option.noConfusion h)
    (Ray.mk ⟨0, 0, 0⟩ ⟨0, 1, 0⟩) 3

/-- C7 (amended): after `set_face_normal`, `front_face` is true exactly when
`dot(r.direction, outward_normal) < 0`, and the stored normal satisfies
`dot(r.direction, normal) ≤ 0` — strictly so whenever
`dot(r.direction, outward_normal) ≠ 0` (a ray exactly tangent to the surface
leaves the dot product at 0, not below it). -/
theorem set_face_normal_orientation (rec : HitRecord) (r : Ray) (outward_normal : Vec3) :
    ((rec.set_face_normal r outward_normal).front_face = true
        ↔ dot r.direction outward_normal < 0)
    ∧ dot r.direction (rec.set_face_normal r outward_normal).normal ≤ 0
    ∧ (dot r.direction outward_normal ≠ 0 →
        dot r.direction (rec.set_face_normal r outward_normal).normal < 0) := by
  unfold HitRecord.set_face_normal
  by_cases h : dot r.direction outward_normal < 0
  · refine ⟨by simp [h], ?_, fun _ => by simp [h]⟩
    simpa [h] using le_of_lt h
  · have h0 : 0 ≤ dot r.direction outward_normal := not_lt.mp h
    refine ⟨by simp [h], ?_, ?_⟩
    · simpa [h, dot_neg_right] using neg_nonpos.mpr h0
    · intro hne
      have hpos : 0 < dot r.direction outward_normal := h0.lt_of_ne (Ne.symm hne)
      simpa [h, dot_neg_right] using neg_neg_of_pos hpos

/-- Witness for C7 at a straight-on hit: the flipped-normal dot product is
strictly negative. -/
theorem set_face_normal_orientation_witness :
    dot (Ray.mk ⟨0, 0, 0⟩ ⟨0, 0, 1⟩).direction (⟨0, 0, -1⟩ : Vec3) ≠ 0
    ∧ dot (Ray.mk ⟨0, 0, 0⟩ ⟨0, 0, 1⟩).direction
        ((HitRecord.new.set_face_normal (Ray.mk ⟨0, 0, 0⟩ ⟨0, 0, 1⟩) ⟨0, 0, -1⟩).normal) < 0 :=
  ⟨by norm_num [dot], (set_face_normal_orientation HitRecord.new
      (Ray.mk ⟨0, 0, 0⟩ ⟨0, 0, 1⟩) ⟨0, 0, -1⟩).2.2 (by norm_num [dot])⟩

/-- Counterexample to C7 as stated: for the tangent ray with direction
(1,0,0) against outward normal (0,1,0), the stored normal is (0,-1,0) and
`dot(r.direction, normal)` equals 0, not strictly below it. -/
theorem set_face_normal_tangent_cex :
    (HitRecord.new.set_face_normal (Ray.mk ⟨0, 0, 0⟩ ⟨1, 0, 0⟩) ⟨0, 1, 0⟩).normal
        = (⟨0, -1, 0⟩ : Vec3)
    ∧ ¬ dot (Ray.mk ⟨0, 0, 0⟩ ⟨1, 0, 0⟩).direction
        ((HitRecord.new.set_face_normal (Ray.mk ⟨0, 0, 0⟩ ⟨1, 0, 0⟩) ⟨0, 1, 0⟩).normal) < 0 := by
  constructor
  · norm_num [HitRecord.set_face_normal, dot, Vec3.neg_def]
  · norm_num [HitRecord.set_face_normal, dot, Vec3.neg_def]

theorem Vec3x8.lanes_add_def (a b : Vec3x8) :
    a + b = ⟨fun i => a.x i + b.x i, fun i => a.y i + b.y i, fun i => a.z i + b.z i⟩ := rfl

theorem Vec3x8.lanes_muls_def (v : Vec3x8) (t : F32x8) :
    v * t = ⟨fun i => v.x i * t i, fun i => v.y i * t i, fun i => v.z i * t i⟩ := rfl

/-- C10: each lane of the 8-wide `Rayx8::at(t)` equals the scalar
point-at-parameter `origin + t·direction` of that lane's ray: the vectorized
ray refines the scalar one lane by lane. -/
theorem rayx8_at_lane (r8 : Rayx8) (t : F32x8) (i : Fin 8) :
    (r8.at t).lane i = (r8.lane i).at (t i) := by
  simp only [Rayx8.at, Rayx8.lane, Vec3x8.lane, Ray.at, Vec3x8.lanes_add_def, Vec3x8.lanes_muls_def,
    Vec3.add_def, Vec3.smul_def, Vec3.mk.injEq]
  refine ⟨by ring, by ring, by ring⟩

/-- C9: the Schlick Fresnel factor at cosine 1 returns exactly F0, and at
cosine 0 returns exactly F0 + (1−F0), i.e. exactly 1 in the exact-arithmetic
model; stated for the scalar form and the Color-valued form used by the
microfacet materials. -/
theorem fresnel_schlick_boundary (f0 : ℚ) (f0c : Color) (_h0 : 0 ≤ f0) (_h1 : f0 ≤ 1) :
    fresnel_schlick_scalar 1 f0 = f0
    ∧ fresnel_schlick_scalar 0 f0 = f0 + (1 - f0)
    ∧ fresnel_schlick_scalar 0 f0 = 1
    ∧ fresnel_schlick 1 f0c = f0c
    ∧ fresnel_schlick 0 f0c = f0c + ((⟨1, 1, 1⟩ : Color) - f0c) := by
  refine ⟨?_, ?_, ?_, ?_, ?_⟩
  · simp [fresnel_schlick_scalar]
  · simp [fresnel_schlick_scalar]
  · simp [fresnel_schlick_scalar]
  · simp [fresnel_schlick, Vec3.add_def, Vec3.sub_def, Vec3.muls_def]
  · simp only [fresnel_schlick, Vec3.add_def, Vec3.sub_def, Vec3.muls_def, Vec3.mk.injEq]
    norm_num

/-- Witness for C9 at F0 = 1/2 (scalar) and F0 = (1/2,1/2,1/2) (color). -/
theorem fresnel_schlick_boundary_witness :
    (0 : ℚ) ≤ 1/2
    ∧ (1/2 : ℚ) ≤ 1
    ∧ fresnel_schlick_scalar 1 (1/2) = 1/2
    ∧ fresnel_schlick_scalar 0 (1/2) = 1 :=
  ⟨by norm_num, by norm_num,
    (fresnel_schlick_boundary (1/2) ⟨1/2, 1/2, 1/2⟩ (by norm_num) (by norm_num)).1,
    (fresnel_schlick_boundary (1/2) ⟨1/2, 1/2, 1/2⟩ (by norm_num) (by norm_num)).2.2.1⟩

/-- C4 (amended): Cook-Torrance `scatter` and `scatter_importance` only
accept samples whose direction is strictly above the surface
(`dot(normal, direction) > 0`), rejecting below-surface samples as `None`;
Disney `scatter_importance` performs no such check and returns the drawn
cosine-sampled direction unchanged (accepting it whatever its orientation);
Blinn-Phong `scatter` (see the counterexample) always accepts the fixed
light direction. -/
theorem scatter_accept_above_surface :
    (∀ (ct : CookTorrance) (r_in : Ray) (rec : HitRecord) (hs : Vec3) (out : Color × Ray),
        ct.scatter r_in rec hs = some out → 0 < dot rec.normal out.2.direction)
    ∧ (∀ (ct : CookTorrance) (r_in : Ray) (rec : HitRecord) (u : ℚ) (hs ld : Vec3)
          (out : Ray × Color × ℚ),
        ct.scatter_importance r_in rec u hs ld = some out → 0 < dot rec.normal out.1.direction)
    ∧ (∀ (d : Disney) (r_in : Ray) (rec : HitRecord) (ld : Vec3) (out : Ray × Color × ℚ),
        d.scatter_importance r_in rec ld = some out → out.1.direction = ld) := by
  refine ⟨?_, ?_, ?_⟩
  · intro ct r_in rec hs out h
    simp only [CookTorrance.scatter] at h
    split at h
    · exact Option.noConfusion h
    · rename_i hgt
      rw [← Option.some.inj h, dot_comm]
      exact not_le.mp hgt
  · intro ct r_in rec u hs ld out h
    simp only [CookTorrance.scatter_importance] at h
    by_cases hu : u < (0.5 : ℚ)
    · simp only [hu, if_true] at h
      split at h
      · simp at h
      · rename_i l ps pd brdf hgt
        split at hgt
        · exact Option.noConfusion hgt
        · rename_i hguard
          simp only [Option.some.injEq, Prod.mk.injEq] at hgt
          obtain ⟨hl, hrest⟩ := hgt
          subst hl
          simp only [Option.some.injEq] at h
          rw [← h, dot_comm]
          exact not_le.mp hguard
    · simp only [hu, if_false] at h
      split at h
      · simp at h
      · rename_i l ps pd brdf hgt
        split at hgt
        · exact Option.noConfusion hgt
        · rename_i hguard
          simp only [Option.some.injEq, Prod.mk.injEq] at hgt
          obtain ⟨hl, hrest⟩ := hgt
          subst hl
          simp only [Option.some.injEq] at h
          rw [← h, dot_comm]
          exact not_le.mp hguard
  · intro d r_in rec ld out h
    simp only [Disney.scatter_importance, Option.some.injEq] at h
    rw [← h]

def c4_dis : Disney := ⟨⟨0, 0, 0⟩, 1, 0, 0, 0, 0, 0, 0, 1⟩

def c4_ray : Ray := Ray.mk ⟨0, 0, 0⟩ ⟨0, -1, 0⟩

def c4_rec : HitRecord := ⟨⟨0, 0, 0⟩, ⟨0, 1, 0⟩, 0, true⟩

def c4_out : Ray × Color × ℚ := (Ray.mk ⟨0, 0, 0⟩ ⟨0, 1, 0⟩, ⟨0, 0, 0⟩, 4194304 / 13176795)

/-- Witness for C4 on the Disney conjunct at a concrete head-on sample. -/
theorem scatter_accept_above_surface_witness :
    Disney.scatter_importance c4_dis c4_ray c4_rec ⟨0, 1, 0⟩ = some c4_out
    ∧ c4_out.1.direction = ⟨0, 1, 0⟩ := by
  have hsome : Disney.scatter_importance c4_dis c4_ray c4_rec ⟨0, 1, 0⟩ = some c4_out := by
    norm_num [Disney.scatter_importance, c4_dis, c4_ray, c4_rec, c4_out, unit_vector,
      Vec3.length, Vec3.length_squared, Vec3.divs_def, Vec3.add_def, Vec3.neg_def,
      Vec3.smul_def, Vec3.muls_def, Vec3.mul_def, Vec3.sub_def, Vec3.lerp, dot,
      Vec3.max_component, disney_diffuse, schlick_weight, gtr1, f32_lerp,
      fresnel_schlick, fresnel_schlick_scalar, rat_sqrt_one, rat_sqrt_four, PI,
      Prod.ext_iff, Vec3.mk.injEq, Ray.mk.injEq, max_def, min_def]
  exact ⟨hsome, scatter_accept_above_surface.2.2 c4_dis c4_ray c4_rec ⟨0, 1, 0⟩ c4_out hsome⟩

/-- Counterexample to C4 as stated: Blinn-Phong's `scatter` accepts (returns
`some`) while the scattered direction — the fixed light direction (0,-1,0) —
lies strictly below the surface of normal (0,1,0). -/
theorem blinn_phong_accepts_below_surface :
    (BlinnPhong.new ⟨1, 1, 1⟩ ⟨1, 1, 1⟩ 1 ⟨0, -1, 0⟩).scatter (Ray.mk ⟨0, 0, 0⟩ ⟨0, 1, 0⟩)
        ⟨⟨0, 0, 0⟩, ⟨0, 1, 0⟩, 0, true⟩
      = some (⟨0, 0, 0⟩, Ray.mk ⟨0, 0, 0⟩ ⟨0, -1, 0⟩)
    ∧ dot (⟨0, 1, 0⟩ : Vec3) (⟨0, -1, 0⟩ : Vec3) < 0 := by
  constructor
  · norm_num [BlinnPhong.new, BlinnPhong.scatter, unit_vector, Vec3.length,
      Vec3.length_squared, Vec3.divs_def, Vec3.add_def, Vec3.neg_def, Vec3.muls_def,
      Vec3.mul_def, dot, rat_sqrt_one, rat_sqrt_four, Prod.ext_iff, Vec3.mk.injEq,
      Ray.mk.injEq, max_def]
  · norm_num [dot]

/-- C8: whenever Cook-Torrance `scatter_importance` accepts a sample (with
the parameters in the ranges produced by `CookTorrance::new`), the pdf it
returns is clamped below by 1e-4 and is therefore strictly positive (and
trivially finite in the exact-rational model, which has no infinities). -/
theorem ct_importance_pdf_positive (ct : CookTorrance) (r_in : Ray) (rec : HitRecord)
    (u : ℚ) (hs ld : Vec3) (out : Ray × Color × ℚ)
    (_hr0 : 0.05 ≤ ct.roughness) (_hr1 : ct.roughness ≤ 1)
    (_hm0 : 0 ≤ ct.metallic) (_hm1 : ct.metallic ≤ 1)
    (h : ct.scatter_importance r_in rec u hs ld = some out) :
    1e-4 ≤ out.2.2 ∧ 0 < out.2.2 := by
  suffices hle : 1e-4 ≤ out.2.2 from ⟨hle, lt_of_lt_of_le (by norm_num) hle⟩
  simp only [CookTorrance.scatter_importance] at h
  by_cases hu : u < (0.5 : ℚ)
  · simp only [hu, if_true] at h
    split at h
    · simp at h
    · simp only [Option.some.injEq] at h
      rw [← h]
      exact le_max_right _ _
  · simp only [hu, if_false] at h
    split at h
    · simp at h
    · simp only [Option.some.injEq] at h
      rw [← h]
      exact le_max_right _ _

/-- The direction along which the Cook-Torrance importance sampler scatters:
the VNDF reflection when the specular lobe is selected (selector below 0.5),
the drawn cosine direction otherwise. -/
def ct_lobe_dir (v hs ld : Vec3) (u : ℚ) : Vec3 :=
  if u < 0.5 then reflect (-v) hs else ld

/-- The half-vector the Cook-Torrance importance sampler evaluates: the drawn
VNDF half-vector when the specular lobe is selected, `unit_vector (v + l)`
otherwise. -/
def ct_lobe_half (v hs ld : Vec3) (u : ℚ) : Vec3 :=
  if u < 0.5 then hs else unit_vector (v + ld)

def sample_ct : CookTorrance := CookTorrance.new ⟨0, 0, 0⟩ 1 1

def sample_ray : Ray := Ray.mk ⟨0, 0, 0⟩ ⟨0, -1, 0⟩

def sample_rec : HitRecord := ⟨⟨0, 0, 0⟩, ⟨0, 1, 0⟩, 0, true⟩

def sample_out : Ray × Color × ℚ := (Ray.mk ⟨0, 0, 0⟩ ⟨0, 1, 0⟩, ⟨0, 0, 0⟩, 524288 / 2635359)

theorem ct_concrete_eval :
    CookTorrance.scatter_importance sample_ct sample_ray sample_rec (7/10) ⟨0, 1, 0⟩ ⟨0, 1, 0⟩
      = some sample_out := by
  norm_num [CookTorrance.scatter_importance, CookTorrance.new, sample_ct, sample_ray,
    sample_rec, sample_out, ct_eval_brdf, pdf_vndf_ggx, geometry_schlick_ggx,
    fresnel_schlick, balance_heuristic, unit_vector, Vec3.length, Vec3.length_squared,
    dot, reflect, Vec3.lerp, Vec3.add_def, Vec3.sub_def, Vec3.neg_def, Vec3.mul_def,
    Vec3.smul_def, Vec3.muls_def, Vec3.divs_def, rat_sqrt_one, rat_sqrt_four, PI,
    max_def, min_def, Prod.ext_iff, Vec3.mk.injEq, Ray.mk.injEq]

/-- Witness for C8 at a concrete diffuse-lobe sample of the roughness-1
metal. -/
theorem ct_importance_pdf_positive_witness :
    (0.05 : ℚ) ≤ sample_ct.roughness
    ∧ sample_ct.roughness ≤ 1
    ∧ (0 : ℚ) ≤ sample_ct.metallic
    ∧ sample_ct.metallic ≤ 1
    ∧ CookTorrance.scatter_importance sample_ct sample_ray sample_rec (7/10) ⟨0, 1, 0⟩ ⟨0, 1, 0⟩
        = some sample_out
    ∧ (1e-4 : ℚ) ≤ sample_out.2.2 ∧ 0 < sample_out.2.2 := by
  have hr0 : (0.05 : ℚ) ≤ sample_ct.roughness := by
    norm_num [sample_ct, CookTorrance.new, min_def, max_def]
  have hr1 : sample_ct.roughness ≤ 1 := by
    norm_num [sample_ct, CookTorrance.new, min_def, max_def]
  have hm0 : (0 : ℚ) ≤ sample_ct.metallic := by
    norm_num [sample_ct, CookTorrance.new, min_def, max_def]
  have hm1 : sample_ct.metallic ≤ 1 := by
    norm_num [sample_ct, CookTorrance.new, min_def, max_def]
  exact ⟨hr0, hr1, hm0, hm1, ct_concrete_eval,
    ct_importance_pdf_positive sample_ct sample_ray sample_rec (7/10) ⟨0, 1, 0⟩ ⟨0, 1, 0⟩
      sample_out hr0 hr1 hm0 hm1 ct_concrete_eval⟩

/-- C5 (amended): Cook-Torrance's `scatter_importance` mixes the
cosine-diffuse and GGX-VNDF specular lobes with a 50/50 selector; the pdf it
returns is `max(0.5·pdf_vndf + 0.5·pdf_cosine, 1e-4)` and the contribution is
weighted by `balance_heuristic(pdf_specular, pdf_diffuse)` — the balance
weight of the **specular** strategy whichever lobe was chosen.  Disney's
`scatter_importance` performs no lobe mixing at all: it always uses the
cosine sample and returns `max(max(cosθ,0)/π, 1e-4)` with no MIS weight. -/
theorem mis_mixture_policy :
    (∀ (ct : CookTorrance) (r_in : Ray) (rec : HitRecord) (u : ℚ) (hs ld : Vec3)
        (out : Ray × Color × ℚ) (v l h : Vec3) (ps pd : ℚ),
      v = -(unit_vector r_in.direction) →
      l = ct_lobe_dir v hs ld u →
      h = ct_lobe_half v hs ld u →
      ps = pdf_vndf_ggx v h rec.normal ct.roughness * 0.5 →
      pd = max (dot rec.normal l) 1e-4 / PI * 0.5 →
      ct.scatter_importance r_in rec u hs ld = some out →
        out.2.2 = max (ps + pd) 1e-4
        ∧ out.2.1 = ct_eval_brdf ct rec.normal v l h * max (dot rec.normal l) 1e-4
            * balance_heuristic ps pd
        ∧ out.1 = Ray.mk rec.p l)
    ∧ (∀ (d : Disney) (r_in : Ray) (rec : HitRecord) (ld : Vec3) (out : Ray × Color × ℚ),
        d.scatter_importance r_in rec ld = some out →
          out.2.2 = max (max (dot rec.normal ld) 0 / PI) 1e-4) := by
  constructor
  · intro ct r_in rec u hs ld out v l h ps pd hv hl hh hps hpd hscat
    subst hv hl hh hps hpd
    simp only [CookTorrance.scatter_importance] at hscat
    by_cases hu : u < (0.5 : ℚ)
    · simp only [hu, if_true] at hscat
      split at hscat
      · simp at hscat
      · rename_i l0 ps0 pd0 brdf0 hgt
        split at hgt
        · exact Option.noConfusion hgt
        · simp only [Option.some.injEq, Prod.mk.injEq] at hgt
          obtain ⟨hl0, hps0, hpd0, hbrdf0⟩ := hgt
          subst hl0
          subst hps0
          subst hpd0
          subst hbrdf0
          simp only [Option.some.injEq] at hscat
          rw [← hscat]
          refine ⟨?_, ?_, ?_⟩ <;> simp [ct_lobe_dir, ct_lobe_half, hu]
    · simp only [hu, if_false] at hscat
      split at hscat
      · simp at hscat
      · rename_i l0 ps0 pd0 brdf0 hgt
        split at hgt
        · exact Option.noConfusion hgt
        · simp only [Option.some.injEq, Prod.mk.injEq] at hgt
          obtain ⟨hl0, hps0, hpd0, hbrdf0⟩ := hgt
          subst hl0
          subst hps0
          subst hpd0
          subst hbrdf0
          simp only [Option.some.injEq] at hscat
          rw [← hscat]
          refine ⟨?_, ?_, ?_⟩ <;> simp [ct_lobe_dir, ct_lobe_half, hu]
  · intro d r_in rec ld out hscat
    simp only [Disney.scatter_importance, Option.some.injEq] at hscat
    rw [← hscat]

def sample_v : Vec3 := -(unit_vector sample_ray.direction)

def sample_l : Vec3 := ct_lobe_dir sample_v ⟨0, 1, 0⟩ ⟨0, 1, 0⟩ (7/10)

def sample_h : Vec3 := ct_lobe_half sample_v ⟨0, 1, 0⟩ ⟨0, 1, 0⟩ (7/10)

def sample_ps : ℚ := pdf_vndf_ggx sample_v sample_h sample_rec.normal sample_ct.roughness * 0.5

def sample_pd : ℚ := max (dot sample_rec.normal sample_l) 1e-4 / PI * 0.5

/-- Witness for C5's Cook-Torrance conjunct at the concrete diffuse-lobe
sample. -/
theorem mis_mixture_policy_witness :
    CookTorrance.scatter_importance sample_ct sample_ray sample_rec (7/10) ⟨0, 1, 0⟩ ⟨0, 1, 0⟩
        = some sample_out
    ∧ sample_out.2.2 = max (sample_ps + sample_pd) 1e-4
    ∧ sample_out.2.1 = ct_eval_brdf sample_ct sample_rec.normal sample_v sample_l sample_h
        * max (dot sample_rec.normal sample_l) 1e-4 * balance_heuristic sample_ps sample_pd
    ∧ sample_out.1 = Ray.mk sample_rec.p sample_l :=
  ⟨ct_concrete_eval,
    mis_mixture_policy.1 sample_ct sample_ray sample_rec (7/10) ⟨0, 1, 0⟩ ⟨0, 1, 0⟩
      sample_out sample_v sample_l sample_h sample_ps sample_pd
      rfl rfl rfl rfl rfl ct_concrete_eval⟩

def c5d_dis : Disney := ⟨⟨0, 0, 0⟩, 1, 1, 0, 0, 0, 0, 0, 1⟩

/-- Counterexample to C5 as stated: at a concrete head-on sample of a
roughness-1 Disney material, the returned pdf is `cosθ/π = 1/π` — the plain
cosine density — and differs from the claimed 50/50 mixture
`0.5·pdf_vndf + 0.5·pdf_cosine`, which evaluates to `5/(8π)` there. -/
theorem disney_pdf_not_mixture :
    (Disney.scatter_importance c5d_dis sample_ray sample_rec ⟨0, 1, 0⟩).map (fun t => t.2.2)
        = some (4194304 / 13176795)
    ∧ ¬ (4194304 / 13176795 : ℚ)
        = 0.5 * pdf_vndf_ggx (-(unit_vector sample_ray.direction))
              (unit_vector (-(unit_vector sample_ray.direction) + ⟨0, 1, 0⟩))
              sample_rec.normal c5d_dis.roughness
          + 0.5 * (max (dot sample_rec.normal (⟨0, 1, 0⟩ : Vec3)) 1e-4 / PI) := by
  constructor
  · norm_num [Disney.scatter_importance, c5d_dis, sample_ray, sample_rec, unit_vector,
      Vec3.length, Vec3.length_squared, Vec3.divs_def, Vec3.add_def, Vec3.neg_def,
      Vec3.smul_def, Vec3.muls_def, Vec3.mul_def, Vec3.sub_def, Vec3.lerp, dot,
      Vec3.max_component, disney_diffuse, schlick_weight, gtr1, f32_lerp,
      fresnel_schlick, fresnel_schlick_scalar, rat_sqrt_one, rat_sqrt_four, PI,
      Prod.ext_iff, Vec3.mk.injEq, Ray.mk.injEq, max_def, min_def]
  · norm_num [pdf_vndf_ggx, geometry_schlick_ggx, c5d_dis, sample_ray, sample_rec,
      unit_vector, Vec3.length, Vec3.length_squared, Vec3.divs_def, Vec3.add_def,
      Vec3.neg_def, dot, rat_sqrt_one, rat_sqrt_four, PI, max_def]
